import Mathlib

/-!
Shallow embedding of the tool-orchestration core of `telegram-mcp-client`
(TypeScript sources: `src/mcp/client.ts`, `src/session/manager.ts`,
`src/bot/telegram-bot.ts`), together with theorems settling the frozen
claims about the Capability Registry, the Provider Connection Manager,
the Session Store, and the Background Retry Supervisor.

JavaScript `Map`s are modelled as insertion-ordered association lists
(`Map.set` updates in place keeping the key's position, or appends a new
key; `Map.delete` removes the entry; iteration follows insertion order),
and JavaScript `Set`s as insertion-ordered duplicate-free lists.
Wall-clock time (`Date.now()`) is passed explicitly as a `Nat` argument.
-/

namespace TMC

/-! ## JavaScript `Map` / `Set` model -/

/-- `Map.get(k)`: the value of the entry whose key equals `k` (keys are
unique in a real `Map`; the list is scanned front-to-back, which is the
insertion order). -/
def jsMapGet {α : Type} : List (String × α) → String → Option α
  | [], _ => none
  | p :: t, k => if p.1 == k then some p.2 else jsMapGet t k

/-- `Map.has(k)`. -/
def jsMapHas {α : Type} (m : List (String × α)) (k : String) : Bool :=
  (jsMapGet m k).isSome

/-- `Map.set(k, v)`: overwrite in place (keeping the key's insertion
position) when the key is present, append otherwise. -/
def jsMapSet {α : Type} (m : List (String × α)) (k : String) (v : α) :
    List (String × α) :=
  if jsMapHas m k then m.map (fun p => if p.1 == k then (k, v) else p)
  else m ++ [(k, v)]

/-- `Map.delete(k)`: drop the entry for `k`, preserving the order of the
remaining entries. -/
def jsMapDelete {α : Type} (m : List (String × α)) (k : String) :
    List (String × α) :=
  m.filter (fun p => p.1 != k)

/-- `Set.add(x)`: append when absent (JS sets are insertion-ordered). -/
def jsSetAdd (s : List String) (x : String) : List String :=
  if s.contains x then s else s ++ [x]

/-- `Set.delete(x)`. -/
def jsSetDelete (s : List String) (x : String) : List String :=
  s.filter (fun y => y != x)

/-! ## Data model (`src/types/index.ts`) -/

/-- `ConversationMessage.role ∈ {user, assistant, system}`. -/
inductive MessageRole where
  | user
  | assistant
  | system
deriving DecidableEq, Repr

/-- `ConversationMessage {role, content, timestamp}`. -/
structure ConversationMessage where
  role : MessageRole
  content : String
  timestamp : Nat
deriving DecidableEq, Repr

/-- `MCPTool {name, description, inputSchema}`; the JSON schema payload is
kept as an opaque string (no claim inspects it). -/
structure MCPTool where
  name : String
  description : String
  inputSchema : String
deriving DecidableEq, Repr

/-- `Session {userId, conversationHistory, activeServers, createdAt,
lastActivity}` (`src/types/index.ts`, used by `SessionManager`). -/
structure Session where
  userId : String
  conversationHistory : List ConversationMessage
  activeServers : List String
  createdAt : Nat
  lastActivity : Nat
deriving DecidableEq, Repr

/-! ## `SessionManager` (`src/session/manager.ts`) -/

/-- The `SessionManager` instance state: its private `sessions` map. -/
structure SessionManagerState where
  sessions : List (String × Session)
deriving DecidableEq, Repr

/-- `SESSION_TIMEOUT = 30 * 60 * 1000` (30 minutes in milliseconds). -/
def SESSION_TIMEOUT : Nat := 30 * 60 * 1000

/-- `getSession(userId)`: returns the existing session after bumping its
`lastActivity` to `now`, or creates and stores a fresh session (empty
history, empty active-server set, both timestamps `now`). Returns the
session together with the updated store (the TS method returns a live
reference into the map; every mutation through that reference is written
back here). -/
def getSession (st : SessionManagerState) (userId : String) (now : Nat) :
    Session × SessionManagerState :=
  match jsMapGet st.sessions userId with
  | none =>
      let s : Session :=
        { userId := userId, conversationHistory := [], activeServers := [],
          createdAt := now, lastActivity := now }
      (s, ⟨jsMapSet st.sessions userId s⟩)
  | some s =>
      let s' := { s with lastActivity := now }
      (s', ⟨jsMapSet st.sessions userId s'⟩)

/-- `addMessage(userId, message)`: `getSession`, push, then
`slice(-20)` when the history exceeds 20 entries. -/
def addMessage (st : SessionManagerState) (userId : String)
    (message : ConversationMessage) (now : Nat) : SessionManagerState :=
  let (s, st') := getSession st userId now
  let h := s.conversationHistory ++ [message]
  let h := if h.length > 20 then h.drop (h.length - 20) else h
  ⟨jsMapSet st'.sessions userId { s with conversationHistory := h }⟩

/-- `clearHistory(userId)`: `getSession` (which bumps `lastActivity`),
then empty the history. -/
def clearHistory (st : SessionManagerState) (userId : String) (now : Nat) :
    SessionManagerState :=
  let (s, st') := getSession st userId now
  ⟨jsMapSet st'.sessions userId { s with conversationHistory := [] }⟩

/-- `addActiveServer(userId, serverId)`. -/
def addActiveServer (st : SessionManagerState) (userId serverId : String)
    (now : Nat) : SessionManagerState :=
  let (s, st') := getSession st userId now
  ⟨jsMapSet st'.sessions userId
    { s with activeServers := jsSetAdd s.activeServers serverId }⟩

/-- `removeActiveServer(userId, serverId)`. -/
def removeActiveServer (st : SessionManagerState) (userId serverId : String)
    (now : Nat) : SessionManagerState :=
  let (s, st') := getSession st userId now
  ⟨jsMapSet st'.sessions userId
    { s with activeServers := jsSetDelete s.activeServers serverId }⟩

/-- `getActiveServers(userId)`: `Array.from(session.activeServers)`
together with the store updated by the embedded `getSession` call. -/
def getActiveServers (st : SessionManagerState) (userId : String)
    (now : Nat) : List String × SessionManagerState :=
  let (s, st') := getSession st userId now
  (s.activeServers, ⟨jsMapSet st'.sessions userId s⟩)

/-- `cleanupInactiveSessions()`: delete every session with
`now - lastActivity > SESSION_TIMEOUT` (`Date.now()` passed as `now`;
the strict `>` keeps a session sitting exactly at the threshold). -/
def cleanupInactiveSessions (st : SessionManagerState) (now : Nat) :
    SessionManagerState :=
  ⟨st.sessions.filter (fun p => !(decide (now - p.2.lastActivity > SESSION_TIMEOUT)))⟩

/-! ## `MCPClient` (`src/mcp/client.ts`)

The instance holds three insertion-ordered maps keyed by server id:
`clients`, `transports` (whose SDK values are irrelevant to the claims —
only key presence and order matter, so they are kept as key lists) and
`availableTools` (the Capability Registry). Network effects are modelled
by outcome parameters: each call that can throw is told whether (and
where) it throws. -/

/-- The `MCPClient` instance state. -/
structure MCPClientState where
  clients : List String
  transports : List String
  availableTools : List (String × List MCPTool)
deriving DecidableEq, Repr

/-- Key insertion with `Map.set` semantics on a key list: keep the
position when present, append when absent. -/
def jsKeySet (l : List String) (k : String) : List String :=
  if l.contains k then l else l ++ [k]

/-- `Map.delete` on a key list. -/
def jsKeyDelete (l : List String) (k : String) : List String :=
  l.filter (fun y => y != k)

/-- Where `connect` fails, if it fails: transport construction /
`client.connect` rejects (`launchFail`), `client.listTools()` rejects
(`handshakeFail`), or the handshake returns `tools` (`ok`). -/
inductive ConnectOutcome where
  | launchFail
  | handshakeFail
  | ok (tools : List MCPTool)
deriving DecidableEq, Repr

/-- `connect(config)` for server id `id` under `outcome`. The TS body
stores the client and transport (`clients.set` / `transports.set`)
*before* calling `listTools()`; on a `listTools` rejection the `catch`
re-throws after logging, leaving those two entries behind while
`availableTools` gains nothing. The returned `Except` is the promise
result; the state is the instance state after the call. -/
def connect (st : MCPClientState) (id : String) (outcome : ConnectOutcome) :
    MCPClientState × Except Unit Unit :=
  match outcome with
  | .launchFail => (st, .error ())
  | .handshakeFail =>
      ({ st with clients := jsKeySet st.clients id,
                 transports := jsKeySet st.transports id }, .error ())
  | .ok tools =>
      ({ clients := jsKeySet st.clients id,
         transports := jsKeySet st.transports id,
         availableTools := jsMapSet st.availableTools id tools }, .ok ())

/-- `disconnect(serverId)`. The TS body runs, inside one `try`:
`client.close()` (when a client is stored) then `clients.delete`;
`transport.close()` (when a transport is stored) then `transports.delete`;
finally `availableTools.delete`. The `catch` logs and **re-throws**, so a
failing close skips every later step, including the registry deletion.
`clientCloseFails` / `transportCloseFails` say whether the respective
`close()` call rejects (relevant only when that object is stored). -/
def disconnect (st : MCPClientState) (id : String)
    (clientCloseFails transportCloseFails : Bool) :
    MCPClientState × Except Unit Unit :=
  if st.clients.contains id ∧ clientCloseFails = true then (st, .error ())
  else
    let st1 := { st with clients := jsKeyDelete st.clients id }
    if st.transports.contains id ∧ transportCloseFails = true then
      (st1, .error ())
    else
      let st2 := { st1 with transports := jsKeyDelete st1.transports id }
      ({ st2 with availableTools := jsMapDelete st2.availableTools id }, .ok ())

/-- `getAllTools()`: flattened enumeration across all providers, in
registration order. -/
def getAllTools (st : MCPClientState) : List MCPTool :=
  st.availableTools.foldl (fun acc p => acc ++ p.2) []

/-- `getConnectedServers()`: `Array.from(clients.keys())`. -/
def getConnectedServers (st : MCPClientState) : List String :=
  st.clients

/-- Does a provider's tool list expose `toolName`?
(`tools.some((t) => t.name === toolName)`). -/
def exposesTool (tools : List MCPTool) (toolName : String) : Bool :=
  tools.any (fun t => t.name == toolName)

/-- The owner-resolution loop of `executeTool`: scan `availableTools`
entries in insertion (= registration) order, `break` at the first
provider whose tool list exposes `toolName`. -/
def findOwner : List (String × List MCPTool) → String → Option String
  | [], _ => none
  | p :: t, toolName =>
      if exposesTool p.2 toolName then some p.1 else findOwner t toolName

/-- How `executeTool(toolName, args)` resolves, up to the provider call:
`notFound` = threw `Tool ... not found in any connected server` (no
provider called); `clientMissing` = owner resolved but `clients.get`
returned nothing (no provider called); `invoked sid` = the call was
routed to provider `sid` (`client.callTool`; its result is external). -/
inductive ExecOutcome where
  | notFound
  | clientMissing (serverId : String)
  | invoked (serverId : String)
deriving DecidableEq, Repr

/-- `executeTool` routing (`src/mcp/client.ts` lines 95–128). -/
def executeTool (st : MCPClientState) (toolName : String) : ExecOutcome :=
  match findOwner st.availableTools toolName with
  | none => .notFound
  | some sid => if st.clients.contains sid then .invoked sid
                else .clientMissing sid

/-! ## String primitives used by the Background Retry Supervisor

Character-list models of the JavaScript string operations the supervisor
relies on (`String.prototype.includes` / `startsWith` / `endsWith` and
the regex replace `fileName.replace(/^\d+_/, '')`). -/

/-- Is the first list a (contiguous, from-the-start) run of the second? -/
def charsStartWith : List Char → List Char → Bool
  | [], _ => true
  | _ :: _, [] => false
  | a :: ps, b :: ss => a == b && charsStartWith ps ss

/-- Does `s` contain `pat` as a contiguous run (JS `includes`)? -/
def charsContain (s pat : List Char) : Bool :=
  match s with
  | [] => charsStartWith pat []
  | _ :: t => charsStartWith pat s || charsContain t pat

/-- JS `s.includes(pat)`. -/
def strIncludes (s pat : String) : Bool :=
  charsContain s.toList pat.toList

/-- JS `s.startsWith(pat)`. -/
def strStarts (s pat : String) : Bool :=
  charsStartWith pat.toList s.toList

/-- JS `s.endsWith(pat)`. -/
def strEnds (s pat : String) : Bool :=
  charsStartWith pat.toList.reverse s.toList.reverse

/-- JS `s.replace(/^\d+_/, '')`: the regex matches iff the maximal
leading digit run is non-empty and is followed by `'_'`; the match (that
digit run plus the underscore) is removed, otherwise `s` is unchanged. -/
def stripLeadingNum (s : String) : String :=
  if (s.toList.takeWhile Char.isDigit).isEmpty then s
  else
    match s.toList.drop (s.toList.takeWhile Char.isDigit).length with
    | '_' :: r => String.mk r
    | _ => s

/-! ## Background Retry Supervisor
(`TelegramBot.processTranslationInBackground`, `src/bot/telegram-bot.ts`)

The loop's externally-visible behaviour is captured as a trace of
delivery/waiting events; each attempt's outcome (the `translate_pdf`
call, result parsing, and the artifact-existence check, which together
either deliver a file or throw) and each post-timeout directory listing
are environment inputs. -/

/-- Outcome of one attempt body: either a translated file was obtained
and exists on disk (`delivered`, carrying the parsed translated path,
original file name and readable size), or the body threw (`failed`,
carrying the error's `message` and optional numeric `code`). -/
inductive AttemptResult where
  | delivered (path origName size : String)
  | failed (msg : String) (code : Option Int)
deriving DecidableEq, Repr

/-- Environment of one background invocation: the outcome of attempt
`n` (0-based), the `temp` directory listing observed after attempt `n`'s
10-second grace wait, and the resolved `temp` directory path
(`join(process.cwd(), 'temp')`). -/
structure BgEnv where
  attempts : Nat → AttemptResult
  tempFiles : Nat → List String
  tempDir : String

/-- Observable events of a background invocation, in order: Telegram
sends and `setTimeout` waits. `terminalFailure` carries the interpolated
error text `lastError?.message || 'Error desconocido'`. -/
inductive BgEvent where
  | retryNotice (attempt : Nat)
  | waited (ms : Nat)
  | chatAction
  | sentDocument (path : String)
  | successMsg (origName size : String)
  | timeoutSuccessMsg
  | retryWarning (attempt delaySeconds : Nat)
  | terminalFailure (text : String)
deriving DecidableEq, Repr

/-- The timeout classification
(`error?.message?.includes('timeout') || error?.code === -32001`). -/
def isTimeoutLike (msg : String) (code : Option Int) : Bool :=
  strIncludes msg "timeout" || code == some (-32001)

/-- The acceptance test of the timeout-survival artifact search:
`f.startsWith('translated_') && f.endsWith(fileName.replace(/^\d+_/, ''))`. -/
def matchesTranslated (fileName f : String) : Bool :=
  strStarts f "translated_" && strEnds f (stripLeadingNum fileName)

/-- The artifact search of the timeout-survival heuristic:
`files.find(f => ...)` — first match in directory-listing order. -/
def findTranslated (files : List String) (fileName : String) : Option String :=
  match files with
  | [] => none
  | f :: t =>
      if matchesTranslated fileName f then some f else findTranslated t fileName

/-- `MAX_RETRIES = 3`. -/
def MAX_RETRIES : Nat := 3

/-- `lastError?.message || 'Error desconocido'` (JS `||` treats the
empty message as falsy). -/
def errTextOf : Option (String × Option Int) → String
  | none => "Error desconocido"
  | some (m, _) => if m = "" then "Error desconocido" else m

/-- The `while (attempt < MAX_RETRIES)` loop, as a function of the
remaining attempt budget `r` (`= MAX_RETRIES - attempt`), the 0-based
index `n` of the next attempt, and the last recorded error. Per
iteration: a retry notice plus a 5s wait when `attempt > 1`, the typing
indicator, then the attempt body; on success the document and the
completion message are sent and the loop exits. On a thrown error: if it
is timeout-classified, wait 10s and search the temp listing — on a hit,
send the found artifact and the timeout completion message and exit;
otherwise (and for non-timeout errors) emit the retry warning plus the
`2^attempt * 5`-second backoff wait when attempts remain, and loop.
Exhaustion emits the single terminal failure message. -/
def bgLoop (env : BgEnv) (fileName : String) :
    Nat → Nat → Option (String × Option Int) → List BgEvent
  | 0, _, lastError => [.terminalFailure (errTextOf lastError)]
  | r + 1, n, _ =>
      let pre := (if n = 0 then [] else
        [BgEvent.retryNotice (n + 1), BgEvent.waited 5000]) ++ [BgEvent.chatAction]
      match env.attempts n with
      | .delivered path orig size =>
          pre ++ [BgEvent.sentDocument path, BgEvent.successMsg orig size]
      | .failed m c =>
          let rest :=
            (if r = 0 then [] else
              [BgEvent.retryWarning (n + 1) (2 ^ (n + 1) * 5),
               BgEvent.waited (2 ^ (n + 1) * 5 * 1000)]) ++
            bgLoop env fileName r (n + 1) (some (m, c))
          if isTimeoutLike m c then
            match findTranslated (env.tempFiles n) fileName with
            | some f =>
                pre ++ [BgEvent.waited 10000,
                        BgEvent.sentDocument (env.tempDir ++ "/" ++ f),
                        BgEvent.timeoutSuccessMsg]
            | none => pre ++ BgEvent.waited 10000 :: rest
          else pre ++ rest

/-- JS `filePath.split('/').pop() || ''`: the substring after the last
`'/'` (the whole string when there is none; empty for a trailing
`'/'`, which is also what the `|| ''` fallback yields). -/
def lastComponent (s : String) : String :=
  String.mk ((s.toList.reverse.takeWhile (fun ch => ch != '/')).reverse)

/-- `processTranslationInBackground(userId, chatId, filePath, ...)`:
runs the retry loop with `fileName = filePath.split('/').pop() || ''`
and the full 3-attempt budget. -/
def processTranslationInBackground (env : BgEnv) (filePath : String) :
    List BgEvent :=
  bgLoop env (lastComponent filePath) MAX_RETRIES 0 none

/-- Terminal-failure events (`sendMessage` of the exhaustion text). -/
def isTerminalEvent : BgEvent → Bool
  | .terminalFailure _ => true
  | _ => false

/-- Success deliveries: a document send or a completion message. -/
def isSuccessDelivery : BgEvent → Bool
  | .sentDocument _ => true
  | .successMsg _ _ => true
  | .timeoutSuccessMsg => true
  | _ => false

/-- The suffix of the `n` most recent elements (all of them when there
are at most `n`); the shape `addMessage` keeps histories in. -/
def keepLast {α : Type} (n : Nat) (xs : List α) : List α :=
  xs.drop (xs.length - n)

/-- Folding a whole list of messages through `addMessage` (each paired
with its `Date.now()` value). -/
def appendAll (st : SessionManagerState) (u : String)
    (msgs : List (ConversationMessage × Nat)) : SessionManagerState :=
  msgs.foldl (fun acc mt => addMessage acc u mt.1 mt.2) st

/-! ## Lemmas about the `Map` model -/

theorem jsMapGet_map_update {α : Type} (m : List (String × α)) (k : String)
    (v : α) (h : jsMapHas m k = true) :
    jsMapGet (m.map (fun p => if p.1 == k then (k, v) else p)) k =
      some v := by
  induction m with
  | nil => simp [jsMapHas, jsMapGet] at h
  | cons a t ih =>
    by_cases ha : (a.1 == k) = true
    · simp [jsMapGet, ha]
    · have ha' : (a.1 == k) = false := by
        cases hb : (a.1 == k) <;> simp_all
      have ht : jsMapHas t k = true := by
        simpa [jsMapHas, jsMapGet, ha'] using h
      simpa [jsMapGet, ha'] using ih ht

theorem jsMapGet_append_single {α : Type} (m : List (String × α))
    (k : String) (v : α) :
    jsMapGet (m ++ [(k, v)]) k = (jsMapGet m k).getD v := by
  induction m with
  | nil => simp [jsMapGet]
  | cons a t ih =>
    by_cases ha : (a.1 == k) = true
    · simp [jsMapGet, ha]
    · have ha' : (a.1 == k) = false := by
        cases hb : (a.1 == k) <;> simp_all
      simpa [jsMapGet, ha'] using ih

/-- Looking up the key just written by `jsMapSet` yields the new value. -/
theorem jsMapGet_set_self {α : Type} (m : List (String × α)) (k : String)
    (v : α) : jsMapGet (jsMapSet m k v) k = some v := by
  unfold jsMapSet
  by_cases h : jsMapHas m k = true
  · rw [if_pos h]
    exact jsMapGet_map_update m k v h
  · rw [if_neg h]
    have h' : jsMapGet m k = none := by
      cases hg : jsMapGet m k with
      | none => rfl
      | some w => exact absurd (by simp [jsMapHas, hg]) h
    rw [jsMapGet_append_single, h']
    rfl

theorem jsMapGet_map_update_ne {α : Type} (m : List (String × α))
    (k k' : String) (v : α) (h : k' ≠ k) :
    jsMapGet (m.map (fun p => if p.1 == k then (k, v) else p)) k' =
      jsMapGet m k' := by
  induction m with
  | nil => rfl
  | cons a t ih =>
    by_cases ha : (a.1 == k) = true
    · have hak : a.1 = k := by simpa using ha
      have h1 : ((k : String) == k') = false := by
        simpa using fun he => h he.symm
      have h2 : (a.1 == k') = false := by
        rw [hak]
        exact h1
      simpa [jsMapGet, ha, h1, h2] using ih
    · have ha' : (a.1 == k) = false := by
        cases hb : (a.1 == k) <;> simp_all
      by_cases hq : (a.1 == k') = true
      · simp [jsMapGet, ha', hq]
      · have hq' : (a.1 == k') = false := by
          cases hb : (a.1 == k') <;> simp_all
        simpa [jsMapGet, ha', hq'] using ih

theorem jsMapGet_append_single_ne {α : Type} (m : List (String × α))
    (k k' : String) (v : α) (h : k' ≠ k) :
    jsMapGet (m ++ [(k, v)]) k' = jsMapGet m k' := by
  induction m with
  | nil =>
    have h1 : ((k : String) == k') = false := by
      simpa using fun he => h he.symm
    simp [jsMapGet, h1]
  | cons a t ih =>
    by_cases hq : (a.1 == k') = true
    · simp [jsMapGet, hq]
    · have hq' : (a.1 == k') = false := by
        cases hb : (a.1 == k') <;> simp_all
      simpa [jsMapGet, hq'] using ih

/-- `jsMapSet` leaves every other key's binding unchanged. -/
theorem jsMapGet_set_ne {α : Type} (m : List (String × α)) (k k' : String)
    (v : α) (h : k' ≠ k) :
    jsMapGet (jsMapSet m k v) k' = jsMapGet m k' := by
  unfold jsMapSet
  by_cases hm : jsMapHas m k = true
  · rw [if_pos hm]
    exact jsMapGet_map_update_ne m k k' v h
  · rw [if_neg hm]
    exact jsMapGet_append_single_ne m k k' v h

/-- After `jsMapDelete`, the deleted key has no binding. -/
theorem jsMapGet_delete_self {α : Type} (m : List (String × α))
    (k : String) : jsMapGet (jsMapDelete m k) k = none := by
  unfold jsMapDelete
  induction m with
  | nil => rfl
  | cons a t ih =>
    by_cases ha : (a.1 == k) = true
    · have hb : (a.1 != k) = false := by simp [bne, ha]
      simpa [List.filter_cons, hb] using ih
    · have ha' : (a.1 == k) = false := by
        cases hb : (a.1 == k) <;> simp_all
      have hb : (a.1 != k) = true := by simp [bne, ha']
      simpa [List.filter_cons, hb, jsMapGet, ha'] using ih

/-- A key absent from the key list has no binding. -/
theorem jsMapGet_eq_none_of_not_mem {α : Type} (m : List (String × α))
    (k : String) (h : k ∉ m.map Prod.fst) : jsMapGet m k = none := by
  induction m with
  | nil => rfl
  | cons a t ih =>
    have hne : (a.1 == k) = false := by
      have : a.1 ≠ k := fun he => h (by simp [he])
      simpa using this
    have ht : k ∉ t.map Prod.fst := fun hm => h (by simp [hm])
    simpa [jsMapGet, hne] using ih ht

/-! ## The history window -/

theorem keepLast_of_le {α : Type} (n : Nat) (xs : List α)
    (h : xs.length ≤ n) : keepLast n xs = xs := by
  unfold keepLast
  rw [show xs.length - n = 0 by omega, List.drop_zero]

theorem keepLast_length_le {α : Type} (n : Nat) (xs : List α) :
    (keepLast n xs).length ≤ n := by
  unfold keepLast
  rw [List.length_drop]
  omega

/-- The truncation step of `addMessage`, phrased via `keepLast`. -/
theorem truncate_eq_keepLast {α : Type} (xs : List α) :
    (if xs.length > 20 then xs.drop (xs.length - 20) else xs) =
      keepLast 20 xs := by
  unfold keepLast
  by_cases h : xs.length > 20
  · rw [if_pos h]
  · rw [if_neg h, show xs.length - 20 = 0 by omega, List.drop_zero]

/-- Re-truncating after appending more elements loses nothing: the
window of the whole sequence equals the window obtained by windowing
after every step. -/
theorem keepLast_append_keepLast {α : Type} (n : Nat) (xs ys : List α) :
    keepLast n (keepLast n xs ++ ys) = keepLast n (xs ++ ys) := by
  by_cases h : xs.length ≤ n
  · rw [keepLast_of_le n xs h]
  · unfold keepLast
    have hlen : (xs.drop (xs.length - n)).length = n := by
      rw [List.length_drop]
      omega
    rw [List.length_append, List.length_append, hlen,
      List.drop_append_eq_append_drop, List.drop_append_eq_append_drop,
      List.drop_drop, hlen]
    have e1 : xs.length - n + (n + ys.length - n) =
        xs.length + ys.length - n := by omega
    have e2 : n + ys.length - n - n = xs.length + ys.length - n - xs.length := by
      omega
    rw [e1, e2]

/-! ## Lemmas about `SessionManager` operations -/

theorem getSession_none (st : SessionManagerState) (u : String) (now : Nat)
    (h : jsMapGet st.sessions u = none) :
    getSession st u now =
      (⟨u, [], [], now, now⟩, ⟨jsMapSet st.sessions u ⟨u, [], [], now, now⟩⟩) := by
  simp [getSession, h]

theorem getSession_some (st : SessionManagerState) (u : String) (now : Nat)
    (s : Session) (h : jsMapGet st.sessions u = some s) :
    getSession st u now =
      ({ s with lastActivity := now },
       ⟨jsMapSet st.sessions u { s with lastActivity := now }⟩) := by
  simp [getSession, h]

/-- `addMessage` on an existing session: `lastActivity` is bumped and
the history becomes the 20-message window over the extended history. -/
theorem addMessage_get_some (st : SessionManagerState) (u : String)
    (m : ConversationMessage) (now : Nat) (s : Session)
    (h : jsMapGet st.sessions u = some s) :
    jsMapGet (addMessage st u m now).sessions u =
      some ⟨s.userId, keepLast 20 (s.conversationHistory ++ [m]),
            s.activeServers, s.createdAt, now⟩ := by
  unfold addMessage
  rw [getSession_some st u now s h]
  simp only [jsMapGet_set_self, truncate_eq_keepLast]

/-- `addMessage` for a user with no session: a fresh session is created
first, so the stored history is just `[m]`. -/
theorem addMessage_get_none (st : SessionManagerState) (u : String)
    (m : ConversationMessage) (now : Nat)
    (h : jsMapGet st.sessions u = none) :
    jsMapGet (addMessage st u m now).sessions u =
      some ⟨u, [m], [], now, now⟩ := by
  unfold addMessage
  rw [getSession_none st u now h]
  simp [jsMapGet_set_self]

theorem appendAll_history (u : String) :
    ∀ (msgs : List (ConversationMessage × Nat)) (st : SessionManagerState)
      (s : Session), jsMapGet st.sessions u = some s →
      s.conversationHistory.length ≤ 20 →
      ∃ s', jsMapGet (appendAll st u msgs).sessions u = some s' ∧
        s'.conversationHistory =
          keepLast 20 (s.conversationHistory ++ msgs.map Prod.fst) := by
  intro msgs
  induction msgs with
  | nil =>
    intro st s h hlen
    refine ⟨s, h, ?_⟩
    rw [List.map_nil, List.append_nil, keepLast_of_le 20 _ hlen]
  | cons mt rest ih =>
    intro st s h hlen
    have h1 := addMessage_get_some st u mt.1 mt.2 s h
    have hlen1 : (keepLast 20 (s.conversationHistory ++ [mt.1])).length ≤ 20 :=
      keepLast_length_le 20 _
    have hstep : appendAll st u (mt :: rest) =
        appendAll (addMessage st u mt.1 mt.2) u rest := rfl
    rw [hstep]
    obtain ⟨s', hs', hhist⟩ := ih (addMessage st u mt.1 mt.2) _ h1 hlen1
    refine ⟨s', hs', ?_⟩
    rw [hhist]
    simp only [keepLast_append_keepLast, List.append_assoc, List.map_cons,
      List.singleton_append]

/-- Keys of a filtered association list are among the original keys. -/
theorem mem_map_fst_filter {α : Type} (q : String × α → Bool)
    (l : List (String × α)) (k : String)
    (h : k ∈ (l.filter q).map Prod.fst) : k ∈ l.map Prod.fst := by
  obtain ⟨p, hp, hk⟩ := List.mem_map.mp h
  exact List.mem_map.mpr ⟨p, List.mem_of_mem_filter hp, hk⟩

/-- What the eviction sweep retains, entry by entry: under unique keys,
a binding survives `cleanupInactiveSessions` exactly when it was there
before and its `lastActivity` is within the 30-minute window. -/
theorem cleanup_get (l : List (String × Session)) (now : Nat) (u : String)
    (s : Session) (hnd : (l.map Prod.fst).Nodup) :
    jsMapGet (l.filter
        (fun p => !(decide (now - p.2.lastActivity > SESSION_TIMEOUT)))) u =
      some s ↔
    (jsMapGet l u = some s ∧ now - s.lastActivity ≤ SESSION_TIMEOUT) := by
  induction l with
  | nil => simp [jsMapGet]
  | cons a t ih =>
    rw [List.map_cons, List.nodup_cons] at hnd
    obtain ⟨ha, hndt⟩ := hnd
    by_cases hk : (a.1 == u) = true
    · have hau : a.1 = u := by simpa using hk
      by_cases hkeep : now - a.2.lastActivity > SESSION_TIMEOUT
      · have hq : (!(decide (now - a.2.lastActivity > SESSION_TIMEOUT))) = false := by
          simp [hkeep]
        have hnone : jsMapGet (t.filter
            (fun p => !(decide (now - p.2.lastActivity > SESSION_TIMEOUT)))) u = none := by
          apply jsMapGet_eq_none_of_not_mem
          intro hm
          exact ha (hau ▸ mem_map_fst_filter _ t u hm)
        rw [List.filter_cons, if_neg (by simp [hq]), hnone]
        simp only [jsMapGet, hk, if_pos]
        constructor
        · intro hfalse
          exact absurd hfalse (by simp)
        · rintro ⟨hs, hle⟩
          injection hs with hs
          subst hs
          omega
      · have hq : (!(decide (now - a.2.lastActivity > SESSION_TIMEOUT))) = true := by
          simp [hkeep]
        rw [List.filter_cons, if_pos (by simp [hq])]
        simp only [jsMapGet, hk, if_pos]
        constructor
        · intro hs
          injection hs with hs
          subst hs
          exact ⟨rfl, by omega⟩
        · rintro ⟨hs, _⟩
          exact hs
    · have hk' : (a.1 == u) = false := by
        cases hb : (a.1 == u) <;> simp_all
      rw [List.filter_cons]
      by_cases hq : (!(decide (now - a.2.lastActivity > SESSION_TIMEOUT))) = true
      · rw [if_pos (by simp [hq])]
        simpa [jsMapGet, hk'] using ih hndt
      · rw [if_neg (by simpa using hq)]
        simpa [jsMapGet, hk'] using ih hndt

theorem clearHistory_get_some (st : SessionManagerState) (u : String)
    (now : Nat) (s : Session) (h : jsMapGet st.sessions u = some s) :
    jsMapGet (clearHistory st u now).sessions u =
      some ⟨s.userId, [], s.activeServers, s.createdAt, now⟩ := by
  unfold clearHistory
  rw [getSession_some st u now s h]
  simp [jsMapGet_set_self]

theorem clearHistory_get_none (st : SessionManagerState) (u : String)
    (now : Nat) (h : jsMapGet st.sessions u = none) :
    jsMapGet (clearHistory st u now).sessions u =
      some ⟨u, [], [], now, now⟩ := by
  unfold clearHistory
  rw [getSession_none st u now h]
  simp [jsMapGet_set_self]

theorem clearHistory_get_other (st : SessionManagerState) (u v : String)
    (now : Nat) (hv : v ≠ u) :
    jsMapGet (clearHistory st u now).sessions v = jsMapGet st.sessions v := by
  unfold clearHistory
  cases hu : jsMapGet st.sessions u with
  | none =>
    rw [getSession_none st u now hu]
    simp only []
    rw [jsMapGet_set_ne _ u v _ hv, jsMapGet_set_ne _ u v _ hv]
  | some s =>
    rw [getSession_some st u now s hu]
    simp only []
    rw [jsMapGet_set_ne _ u v _ hv, jsMapGet_set_ne _ u v _ hv]

theorem addActiveServer_get_some (st : SessionManagerState)
    (u sid : String) (now : Nat) (s : Session)
    (h : jsMapGet st.sessions u = some s) :
    jsMapGet (addActiveServer st u sid now).sessions u =
      some ⟨s.userId, s.conversationHistory,
            jsSetAdd s.activeServers sid, s.createdAt, now⟩ := by
  unfold addActiveServer
  rw [getSession_some st u now s h]
  simp [jsMapGet_set_self]

theorem addActiveServer_get_none (st : SessionManagerState)
    (u sid : String) (now : Nat) (h : jsMapGet st.sessions u = none) :
    jsMapGet (addActiveServer st u sid now).sessions u =
      some ⟨u, [], [sid], now, now⟩ := by
  unfold addActiveServer
  rw [getSession_none st u now h]
  simp [jsMapGet_set_self, jsSetAdd]

theorem removeActiveServer_get_some (st : SessionManagerState)
    (u sid : String) (now : Nat) (s : Session)
    (h : jsMapGet st.sessions u = some s) :
    jsMapGet (removeActiveServer st u sid now).sessions u =
      some ⟨s.userId, s.conversationHistory,
            jsSetDelete s.activeServers sid, s.createdAt, now⟩ := by
  unfold removeActiveServer
  rw [getSession_some st u now s h]
  simp [jsMapGet_set_self]

theorem removeActiveServer_get_none (st : SessionManagerState)
    (u sid : String) (now : Nat) (h : jsMapGet st.sessions u = none) :
    jsMapGet (removeActiveServer st u sid now).sessions u =
      some ⟨u, [], [], now, now⟩ := by
  unfold removeActiveServer
  rw [getSession_none st u now h]
  simp [jsMapGet_set_self, jsSetDelete]

theorem getActiveServers_get_some (st : SessionManagerState)
    (u : String) (now : Nat) (s : Session)
    (h : jsMapGet st.sessions u = some s) :
    (getActiveServers st u now).1 = s.activeServers ∧
    jsMapGet ((getActiveServers st u now).2).sessions u =
      some ⟨s.userId, s.conversationHistory, s.activeServers,
            s.createdAt, now⟩ := by
  unfold getActiveServers
  rw [getSession_some st u now s h]
  simp [jsMapGet_set_self]

theorem getActiveServers_get_none (st : SessionManagerState)
    (u : String) (now : Nat) (h : jsMapGet st.sessions u = none) :
    (getActiveServers st u now).1 = [] ∧
    jsMapGet ((getActiveServers st u now).2).sessions u =
      some ⟨u, [], [], now, now⟩ := by
  unfold getActiveServers
  rw [getSession_none st u now h]
  simp [jsMapGet_set_self]

/-! ## Claim theorems: Session Store -/

/-- C5 counterexample: the claim says `clear_history` leaves
`last_activity` unchanged, but `clearHistory` routes through
`getSession`, which bumps `lastActivity` to the call time. Starting from
a session with `lastActivity = 0`, clearing at time 99 stores
`lastActivity = 99 ≠ 0`. -/
theorem c5_counterexample :
    (jsMapGet (clearHistory ⟨[("u", ⟨"u", [], [], 0, 0⟩)]⟩ "u" 99).sessions
        "u").map Session.lastActivity = some 99 ∧
    ¬((jsMapGet (clearHistory ⟨[("u", ⟨"u", [], [], 0, 0⟩)]⟩ "u" 99).sessions
        "u").map Session.lastActivity =
      (jsMapGet (SessionManagerState.mk [("u", ⟨"u", [], [], 0, 0⟩)]).sessions
        "u").map Session.lastActivity) := by
  decide

/-- C5 (amended): for every user with an existing session,
`clear_history(user_id)` empties the session's history and leaves the
active-provider set, `created_at`, and every other user's session
unchanged — but it updates `last_activity` to the time of the call
(the embedded `getSession` bumps it). -/
theorem c5_clear_history_frame (st : SessionManagerState) (u : String)
    (now : Nat) (s : Session) (h : jsMapGet st.sessions u = some s) :
    jsMapGet (clearHistory st u now).sessions u =
      some ⟨s.userId, [], s.activeServers, s.createdAt, now⟩ ∧
    ∀ v, v ≠ u → jsMapGet (clearHistory st u now).sessions v =
      jsMapGet st.sessions v := by
  exact ⟨clearHistory_get_some st u now s h,
    fun v hv => clearHistory_get_other st u v now hv⟩

/-- C5 witness: the amended statement at a concrete store, with the
frame part instantiated at a second user. -/
theorem c5_clear_history_frame_witness :
    jsMapGet (SessionManagerState.mk [("u", ⟨"u", [], ["srv"], 3, 5⟩)]).sessions
      "u" = some ⟨"u", [], ["srv"], 3, 5⟩ ∧
    jsMapGet (clearHistory ⟨[("u", ⟨"u", [], ["srv"], 3, 5⟩)]⟩ "u" 42).sessions
      "u" = some ⟨"u", [], ["srv"], 3, 42⟩ ∧
    jsMapGet (clearHistory ⟨[("u", ⟨"u", [], ["srv"], 3, 5⟩)]⟩ "u" 42).sessions
      "w" = jsMapGet (SessionManagerState.mk
        [("u", ⟨"u", [], ["srv"], 3, 5⟩)]).sessions "w" :=
  ⟨by decide,
    (c5_clear_history_frame ⟨[("u", ⟨"u", [], ["srv"], 3, 5⟩)]⟩ "u" 42
      ⟨"u", [], ["srv"], 3, 5⟩ (by decide)).1,
    (c5_clear_history_frame ⟨[("u", ⟨"u", [], ["srv"], 3, 5⟩)]⟩ "u" 42
      ⟨"u", [], ["srv"], 3, 5⟩ (by decide)).2 "w" (by decide)⟩

/-- C6: appending any non-empty sequence of messages to a fresh session
leaves, after every step (every prefix being itself such a sequence),
exactly the messages beyond the `length - 20` oldest, in insertion
order: for more than 20 appends exactly the 20 most recent survive,
oldest dropped first, and 20 or fewer are kept in full. -/
theorem c6_history_window (st : SessionManagerState) (u : String)
    (m0 : ConversationMessage × Nat) (rest : List (ConversationMessage × Nat))
    (h : jsMapGet st.sessions u = none) :
    (jsMapGet (appendAll st u (m0 :: rest)).sessions u).map
        Session.conversationHistory =
      some (((m0 :: rest).map Prod.fst).drop ((m0 :: rest).length - 20)) := by
  have h1 := addMessage_get_none st u m0.1 m0.2 h
  have hstep : appendAll st u (m0 :: rest) =
      appendAll (addMessage st u m0.1 m0.2) u rest := rfl
  obtain ⟨s', hs', hhist⟩ :=
    appendAll_history u rest (addMessage st u m0.1 m0.2) _ h1 (by simp)
  rw [hstep, hs', Option.map_some']
  rw [hhist]
  unfold keepLast
  simp

/-- C6 witness: the window statement at a concrete fresh store. -/
theorem c6_history_window_witness :
    jsMapGet (SessionManagerState.mk []).sessions "u" = none ∧
    (jsMapGet (appendAll ⟨[]⟩ "u"
        (((⟨.user, "a", 0⟩, 0) :: [(⟨.user, "b", 1⟩, 1)]) :
          List (ConversationMessage × Nat))).sessions "u").map
        Session.conversationHistory =
      some ((((((⟨.user, "a", 0⟩, 0) :: [(⟨.user, "b", 1⟩, 1)]) :
          List (ConversationMessage × Nat))).map Prod.fst).drop
        (((((⟨.user, "a", 0⟩, 0) :: [(⟨.user, "b", 1⟩, 1)]) :
          List (ConversationMessage × Nat))).length - 20)) :=
  ⟨by decide, c6_history_window ⟨[]⟩ "u" (⟨.user, "a", 0⟩, 0)
    [(⟨.user, "b", 1⟩, 1)] (by decide)⟩

/-- C7: under unique session keys, a sweep at time `now` removes a
session exactly when `now - last_activity` strictly exceeds the
30-minute timeout: a surviving lookup returns the session unchanged iff
it was present and within the window (the threshold itself survives),
and a session strictly past the threshold is absent afterwards. -/
theorem c7_sweep_threshold (st : SessionManagerState) (now : Nat)
    (u : String) (s : Session)
    (hnd : (st.sessions.map Prod.fst).Nodup) :
    (jsMapGet (cleanupInactiveSessions st now).sessions u = some s ↔
      (jsMapGet st.sessions u = some s ∧
        now - s.lastActivity ≤ SESSION_TIMEOUT)) ∧
    (jsMapGet st.sessions u = some s →
      now - s.lastActivity > SESSION_TIMEOUT →
      jsMapGet (cleanupInactiveSessions st now).sessions u = none) := by
  constructor
  · exact cleanup_get st.sessions now u s hnd
  · intro hs hgt
    cases hres : jsMapGet (cleanupInactiveSessions st now).sessions u with
    | none => rfl
    | some w =>
      obtain ⟨hw, hle⟩ := (cleanup_get st.sessions now u w hnd).mp hres
      rw [hs] at hw
      injection hw with hw
      subst hw
      omega

/-- C7 witness: over a store holding a stale session `a`
(`lastActivity = 0`) and a fresh session `b` (`lastActivity = 5`),
sweeping at `now = 1800001` removes `a`, and `b`'s survival is
characterised by the window condition. -/
theorem c7_sweep_threshold_witness :
    (((SessionManagerState.mk [("a", ⟨"a", [], [], 0, 0⟩),
        ("b", ⟨"b", [], [], 0, 5⟩)]).sessions.map Prod.fst).Nodup) ∧
    jsMapGet (cleanupInactiveSessions ⟨[("a", ⟨"a", [], [], 0, 0⟩),
        ("b", ⟨"b", [], [], 0, 5⟩)]⟩ 1800001).sessions "a" = none ∧
    (jsMapGet (cleanupInactiveSessions ⟨[("a", ⟨"a", [], [], 0, 0⟩),
        ("b", ⟨"b", [], [], 0, 5⟩)]⟩ 1800001).sessions "b" =
        some ⟨"b", [], [], 0, 5⟩ ↔
      (jsMapGet (SessionManagerState.mk [("a", ⟨"a", [], [], 0, 0⟩),
          ("b", ⟨"b", [], [], 0, 5⟩)]).sessions "b" =
          some ⟨"b", [], [], 0, 5⟩ ∧
        1800001 - (Session.mk "b" [] [] 0 5).lastActivity ≤
          SESSION_TIMEOUT)) :=
  ⟨by decide,
    (c7_sweep_threshold ⟨[("a", ⟨"a", [], [], 0, 0⟩),
        ("b", ⟨"b", [], [], 0, 5⟩)]⟩ 1800001 "a"
      ⟨"a", [], [], 0, 0⟩ (by decide)).2 (by decide) (by decide),
    (c7_sweep_threshold ⟨[("a", ⟨"a", [], [], 0, 0⟩),
        ("b", ⟨"b", [], [], 0, 5⟩)]⟩ 1800001 "b"
      ⟨"b", [], [], 0, 5⟩ (by decide)).1⟩

/-- C10: every Session Store operation called for a user with no
session lazily creates one (empty history, empty active-server set,
both timestamps `now`) and then applies its mutation, never raising;
and after any of the five operations a session for that user exists
whose `last_activity` is the call time. -/
theorem c10_lazy_session_creation (st : SessionManagerState)
    (u sid : String) (msg : ConversationMessage) (now : Nat) :
    ((jsMapGet (addMessage st u msg now).sessions u).map
        Session.lastActivity = some now ∧
     (jsMapGet (clearHistory st u now).sessions u).map
        Session.lastActivity = some now ∧
     (jsMapGet (addActiveServer st u sid now).sessions u).map
        Session.lastActivity = some now ∧
     (jsMapGet (removeActiveServer st u sid now).sessions u).map
        Session.lastActivity = some now ∧
     (jsMapGet ((getActiveServers st u now).2).sessions u).map
        Session.lastActivity = some now) ∧
    (jsMapGet st.sessions u = none →
      jsMapGet (addMessage st u msg now).sessions u =
        some ⟨u, [msg], [], now, now⟩ ∧
      jsMapGet (clearHistory st u now).sessions u =
        some ⟨u, [], [], now, now⟩ ∧
      jsMapGet (addActiveServer st u sid now).sessions u =
        some ⟨u, [], [sid], now, now⟩ ∧
      jsMapGet (removeActiveServer st u sid now).sessions u =
        some ⟨u, [], [], now, now⟩ ∧
      (getActiveServers st u now).1 = [] ∧
      jsMapGet ((getActiveServers st u now).2).sessions u =
        some ⟨u, [], [], now, now⟩) := by
  constructor
  · cases hu : jsMapGet st.sessions u with
    | none =>
      refine ⟨?_, ?_, ?_, ?_, ?_⟩
      · rw [addMessage_get_none st u msg now hu]
        rfl
      · rw [clearHistory_get_none st u now hu]
        rfl
      · rw [addActiveServer_get_none st u sid now hu]
        rfl
      · rw [removeActiveServer_get_none st u sid now hu]
        rfl
      · rw [(getActiveServers_get_none st u now hu).2]
        rfl
    | some s =>
      refine ⟨?_, ?_, ?_, ?_, ?_⟩
      · rw [addMessage_get_some st u msg now s hu]
        rfl
      · rw [clearHistory_get_some st u now s hu]
        rfl
      · rw [addActiveServer_get_some st u sid now s hu]
        rfl
      · rw [removeActiveServer_get_some st u sid now s hu]
        rfl
      · rw [(getActiveServers_get_some st u now s hu).2]
        rfl
  · intro hu
    exact ⟨addMessage_get_none st u msg now hu,
      clearHistory_get_none st u now hu,
      addActiveServer_get_none st u sid now hu,
      removeActiveServer_get_none st u sid now hu,
      (getActiveServers_get_none st u now hu).1,
      (getActiveServers_get_none st u now hu).2⟩

/-! ## Claim theorems: Provider Connection Manager / Invocation Router -/

theorem jsKeySet_contains_self (l : List String) (k : String) :
    (jsKeySet l k).contains k = true := by
  unfold jsKeySet
  by_cases h : l.contains k = true
  · rw [if_pos h]
    exact h
  · rw [if_neg h]
    simp

theorem findOwner_eq_none (entries : List (String × List MCPTool))
    (name : String) (h : ∀ p ∈ entries, exposesTool p.2 name = false) :
    findOwner entries name = none := by
  induction entries with
  | nil => rfl
  | cons a t ih =>
    have ha : exposesTool a.2 name = false := h a (by simp)
    have ht : ∀ p ∈ t, exposesTool p.2 name = false :=
      fun p hp => h p (by simp [hp])
    simpa [findOwner, ha] using ih ht

theorem findOwner_first (name : String) (pre : List (String × List MCPTool))
    (sid : String) (ts : List MCPTool)
    (post : List (String × List MCPTool))
    (hpre : ∀ p ∈ pre, exposesTool p.2 name = false)
    (hexp : exposesTool ts name = true) :
    findOwner (pre ++ (sid, ts) :: post) name = some sid := by
  induction pre with
  | nil => simp [findOwner, hexp]
  | cons a t ih =>
    have ha : exposesTool a.2 name = false := hpre a (by simp)
    have ht : ∀ p ∈ t, exposesTool p.2 name = false :=
      fun p hp => hpre p (by simp [hp])
    simpa [findOwner, ha] using ih ht

/-- C1 counterexample: the claim says `disconnect(id)` always clears
the registry for `id` and never re-raises teardown errors. Against a
connected provider `p` whose `client.close()` rejects, `disconnect`
re-raises and the registry still holds `p`'s capability list. -/
theorem c1_counterexample :
    (disconnect ⟨["p"], ["p"], [("p", [⟨"t", "", ""⟩])]⟩ "p" true false).2 =
      Except.error () ∧
    jsMapGet (disconnect ⟨["p"], ["p"], [("p", [⟨"t", "", ""⟩])]⟩ "p"
      true false).1.availableTools "p" = some [⟨"t", "", ""⟩] := by
  constructor
  · rfl
  · rfl

/-- C1 (amended): `disconnect(id)` removes the provider's registry
entries exactly when no teardown step throws; when a stored client's or
transport's `close()` rejects, the error is re-raised to the caller and
the registry entry for `id` survives (the `availableTools.delete` sits
after the close calls inside the same `try`). -/
theorem c1_disconnect_unregister (st : MCPClientState) (id : String) :
    ((disconnect st id false false).2 = Except.ok () ∧
     jsMapGet (disconnect st id false false).1.availableTools id = none) ∧
    (st.clients.contains id = true → ∀ tcf,
      disconnect st id true tcf = (st, Except.error ())) ∧
    (st.transports.contains id = true →
      disconnect st id false true =
        ({ st with clients := jsKeyDelete st.clients id },
         Except.error ())) := by
  refine ⟨?_, ?_, ?_⟩
  · unfold disconnect
    rw [if_neg (by simp), if_neg (by simp)]
    exact ⟨rfl, jsMapGet_delete_self _ id⟩
  · intro hc tcf
    unfold disconnect
    rw [if_pos ⟨hc, rfl⟩]
  · intro htr
    unfold disconnect
    rw [if_neg (by simp), if_pos ⟨htr, rfl⟩]

/-- C1 witness: the amended statement at a concrete connected state,
with the containment hypotheses discharged. -/
theorem c1_disconnect_unregister_witness :
    (MCPClientState.mk ["p"] ["p"]
      [("p", [⟨"t", "", ""⟩])]).clients.contains "p" = true ∧
    (disconnect ⟨["p"], ["p"], [("p", [⟨"t", "", ""⟩])]⟩ "p" false
      false).2 = Except.ok () ∧
    jsMapGet (disconnect ⟨["p"], ["p"], [("p", [⟨"t", "", ""⟩])]⟩ "p"
      false false).1.availableTools "p" = none ∧
    disconnect ⟨["p"], ["p"], [("p", [⟨"t", "", ""⟩])]⟩ "p" true false =
      (⟨["p"], ["p"], [("p", [⟨"t", "", ""⟩])]⟩, Except.error ()) ∧
    disconnect ⟨["p"], ["p"], [("p", [⟨"t", "", ""⟩])]⟩ "p" false true =
      ({ MCPClientState.mk ["p"] ["p"] [("p", [⟨"t", "", ""⟩])] with
          clients := jsKeyDelete ["p"] "p" }, Except.error ()) :=
  ⟨by decide,
    (c1_disconnect_unregister ⟨["p"], ["p"],
      [("p", [⟨"t", "", ""⟩])]⟩ "p").1.1,
    (c1_disconnect_unregister ⟨["p"], ["p"],
      [("p", [⟨"t", "", ""⟩])]⟩ "p").1.2,
    (c1_disconnect_unregister ⟨["p"], ["p"],
      [("p", [⟨"t", "", ""⟩])]⟩ "p").2.1 (by decide) false,
    (c1_disconnect_unregister ⟨["p"], ["p"],
      [("p", [⟨"t", "", ""⟩])]⟩ "p").2.2 (by decide)⟩

/-- C4 counterexample: the claim says a failed `connect` leaves the
provider outside the currently-connected set. A `listTools` (handshake)
rejection against an empty state re-raises, yet `getConnectedServers`
already lists the provider, because `clients.set` runs before the
capability-listing handshake. -/
theorem c4_counterexample :
    (connect ⟨[], [], []⟩ "p" ConnectOutcome.handshakeFail).2 =
      Except.error () ∧
    getConnectedServers
      (connect ⟨[], [], []⟩ "p" ConnectOutcome.handshakeFail).1 = ["p"] ∧
    (connect ⟨[], [], []⟩ "p"
      ConnectOutcome.handshakeFail).1.availableTools = [] := by
  refine ⟨rfl, ?_, rfl⟩
  rfl

/-- C4 (amended): `connect` is atomic with respect to the registry but
not the connection set: a launch failure changes nothing; a handshake
(capability-listing) failure re-raises with the registry unchanged, yet
leaves the provider recorded among currently-connected providers, so
the flattened registry view can omit a listed connected provider; a
successful connect registers the listed tools. -/
theorem c4_connect_atomicity (st : MCPClientState) (id : String) :
    (connect st id ConnectOutcome.launchFail = (st, Except.error ())) ∧
    ((connect st id ConnectOutcome.handshakeFail).1.availableTools =
        st.availableTools ∧
     (connect st id ConnectOutcome.handshakeFail).2 = Except.error () ∧
     (getConnectedServers (connect st id
        ConnectOutcome.handshakeFail).1).contains id = true) ∧
    (∀ tools, (connect st id (ConnectOutcome.ok tools)).2 = Except.ok () ∧
      jsMapGet (connect st id
        (ConnectOutcome.ok tools)).1.availableTools id = some tools) := by
  refine ⟨rfl, ⟨rfl, rfl, ?_⟩, fun tools => ⟨rfl, ?_⟩⟩
  · exact jsKeySet_contains_self st.clients id
  · exact jsMapGet_set_self st.availableTools id tools

/-- C8: owner resolution inside `executeTool` scans providers in
registration order: when no registered provider exposes the name the
call fails with the not-found outcome (no provider call is modelled to
happen), and when the first exposing provider in registration order is
`sid` (with a live client), the invocation is routed to `sid`. -/
theorem c8_owner_resolution (st : MCPClientState) (name : String) :
    ((∀ p ∈ st.availableTools, exposesTool p.2 name = false) →
      executeTool st name = ExecOutcome.notFound) ∧
    (∀ pre sid ts post,
      st.availableTools = pre ++ (sid, ts) :: post →
      (∀ p ∈ pre, exposesTool p.2 name = false) →
      exposesTool ts name = true →
      st.clients.contains sid = true →
      executeTool st name = ExecOutcome.invoked sid) := by
  constructor
  · intro h
    unfold executeTool
    rw [findOwner_eq_none st.availableTools name h]
  · intro pre sid ts post hsplit hpre hexp hconn
    unfold executeTool
    rw [hsplit, findOwner_first name pre sid ts post hpre hexp]
    have hm : sid ∈ st.clients := by simpa using hconn
    simp [hm]

/-- C8 witness: with providers `a` then `b` registered and only `b`
exposing `dup`, resolution routes to `b`; a missing name is
not-found. -/
theorem c8_owner_resolution_witness :
    (∀ p ∈ (MCPClientState.mk ["a", "b"] ["a", "b"]
        [("a", [⟨"x", "", ""⟩]), ("b", [⟨"dup", "", ""⟩])]).availableTools,
      exposesTool p.2 "zzz" = false) ∧
    executeTool ⟨["a", "b"], ["a", "b"],
      [("a", [⟨"x", "", ""⟩]), ("b", [⟨"dup", "", ""⟩])]⟩ "zzz" =
      ExecOutcome.notFound ∧
    executeTool ⟨["a", "b"], ["a", "b"],
      [("a", [⟨"x", "", ""⟩]), ("b", [⟨"dup", "", ""⟩])]⟩ "dup" =
      ExecOutcome.invoked "b" :=
  ⟨by decide,
    (c8_owner_resolution ⟨["a", "b"], ["a", "b"],
      [("a", [⟨"x", "", ""⟩]), ("b", [⟨"dup", "", ""⟩])]⟩ "zzz").1
      (by decide),
    (c8_owner_resolution ⟨["a", "b"], ["a", "b"],
      [("a", [⟨"x", "", ""⟩]), ("b", [⟨"dup", "", ""⟩])]⟩ "dup").2
      [("a", [⟨"x", "", ""⟩])] "b" [⟨"dup", "", ""⟩] [] rfl
      (by decide) (by decide) (by decide)⟩

/-- C4 witness: the atomicity statement at the empty state, with the
success case instantiated at one tool. -/
theorem c4_connect_atomicity_witness :
    connect ⟨[], [], []⟩ "p" ConnectOutcome.launchFail =
      (⟨[], [], []⟩, Except.error ()) ∧
    (connect ⟨[], [], []⟩ "p" ConnectOutcome.handshakeFail).1.availableTools =
      [] ∧
    (connect ⟨[], [], []⟩ "p" ConnectOutcome.handshakeFail).2 =
      Except.error () ∧
    (getConnectedServers (connect ⟨[], [], []⟩ "p"
      ConnectOutcome.handshakeFail).1).contains "p" = true ∧
    (connect ⟨[], [], []⟩ "p"
      (ConnectOutcome.ok [⟨"t", "", ""⟩])).2 = Except.ok () ∧
    jsMapGet (connect ⟨[], [], []⟩ "p"
      (ConnectOutcome.ok [⟨"t", "", ""⟩])).1.availableTools "p" =
      some [⟨"t", "", ""⟩] :=
  ⟨(c4_connect_atomicity ⟨[], [], []⟩ "p").1,
    (c4_connect_atomicity ⟨[], [], []⟩ "p").2.1.1,
    (c4_connect_atomicity ⟨[], [], []⟩ "p").2.1.2.1,
    (c4_connect_atomicity ⟨[], [], []⟩ "p").2.1.2.2,
    ((c4_connect_atomicity ⟨[], [], []⟩ "p").2.2 [⟨"t", "", ""⟩]).1,
    ((c4_connect_atomicity ⟨[], [], []⟩ "p").2.2 [⟨"t", "", ""⟩]).2⟩

/-! ## Claim theorems: Background Retry Supervisor -/

/-- C3: whenever an attempt of the background loop fails with a
timeout-classified error (message containing `timeout` or code
`-32001`) and the post-grace temp listing contains a file matching the
expected pattern, the supervisor waits the 10-second grace period,
delivers the first matching artifact as a success, and the run ends
without starting another attempt. -/
theorem c3_timeout_survival (env : BgEnv) (fn : String) (r n : Nat)
    (last : Option (String × Option Int)) (m : String) (c : Option Int)
    (f : String)
    (ha : env.attempts n = AttemptResult.failed m c)
    (ht : isTimeoutLike m c = true)
    (hf : findTranslated (env.tempFiles n) fn = some f) :
    bgLoop env fn (r + 1) n last =
      (if n = 0 then [] else
        [BgEvent.retryNotice (n + 1), BgEvent.waited 5000]) ++
      [BgEvent.chatAction, BgEvent.waited 10000,
       BgEvent.sentDocument (env.tempDir ++ "/" ++ f),
       BgEvent.timeoutSuccessMsg] := by
  simp [bgLoop, ha, ht, hf]

/-- C3 witness: a first-attempt timeout with the artifact present in
the grace-window listing. -/
theorem c3_timeout_survival_witness :
    (BgEnv.mk (fun _ => AttemptResult.failed "Request timeout" none)
      (fun _ => ["translated_doc.pdf"]) "cwd/temp").attempts 0 =
      AttemptResult.failed "Request timeout" none ∧
    isTimeoutLike "Request timeout" none = true ∧
    findTranslated ((BgEnv.mk
      (fun _ => AttemptResult.failed "Request timeout" none)
      (fun _ => ["translated_doc.pdf"]) "cwd/temp").tempFiles 0)
      "111_doc.pdf" = some "translated_doc.pdf" ∧
    bgLoop (BgEnv.mk (fun _ => AttemptResult.failed "Request timeout" none)
        (fun _ => ["translated_doc.pdf"]) "cwd/temp") "111_doc.pdf"
        (2 + 1) 0 none =
      (if 0 = 0 then ([] : List BgEvent) else
        [BgEvent.retryNotice 1, BgEvent.waited 5000]) ++
      [BgEvent.chatAction, BgEvent.waited 10000,
       BgEvent.sentDocument ("cwd/temp" ++ "/" ++ "translated_doc.pdf"),
       BgEvent.timeoutSuccessMsg] :=
  ⟨rfl, by decide, by decide,
    c3_timeout_survival (BgEnv.mk
      (fun _ => AttemptResult.failed "Request timeout" none)
      (fun _ => ["translated_doc.pdf"]) "cwd/temp") "111_doc.pdf" 2 0 none
      "Request timeout" none "translated_doc.pdf" rfl (by decide) (by decide)⟩

/-- C2 counterexample: with all three attempts failing non-timeout with
the empty error message, the single terminal notification's interpolated
text is the `'Error desconocido'` fallback (JS `||` treats the empty
message as falsy), not the last error's (empty) message. -/
theorem c2_counterexample :
    processTranslationInBackground
        ⟨fun _ => AttemptResult.failed "" none, fun _ => [], "T"⟩ "f.pdf" =
      [BgEvent.chatAction, BgEvent.retryWarning 1 10, BgEvent.waited 10000,
       BgEvent.retryNotice 2, BgEvent.waited 5000, BgEvent.chatAction,
       BgEvent.retryWarning 2 20, BgEvent.waited 20000,
       BgEvent.retryNotice 3, BgEvent.waited 5000, BgEvent.chatAction,
       BgEvent.terminalFailure "Error desconocido"] ∧
    ¬(BgEvent.terminalFailure "" ∈ processTranslationInBackground
        ⟨fun _ => AttemptResult.failed "" none, fun _ => [], "T"⟩ "f.pdf") := by
  constructor
  · rfl
  · decide

/-- C2 (amended): when all three attempts fail with non-timeout errors,
exactly one terminal failure notification is delivered and no success
delivery occurs; the notification carries the last error's message when
it is non-empty, and the fixed fallback text `Error desconocido` when
the last error's message is empty. -/
theorem c2_terminal_failure (env : BgEnv) (fp : String)
    (m1 m2 m3 : String) (k1 k2 k3 : Option Int)
    (h1 : env.attempts 0 = AttemptResult.failed m1 k1)
    (h2 : env.attempts 1 = AttemptResult.failed m2 k2)
    (h3 : env.attempts 2 = AttemptResult.failed m3 k3)
    (t1 : isTimeoutLike m1 k1 = false)
    (t2 : isTimeoutLike m2 k2 = false)
    (t3 : isTimeoutLike m3 k3 = false) :
    processTranslationInBackground env fp =
      [BgEvent.chatAction, BgEvent.retryWarning 1 10, BgEvent.waited 10000,
       BgEvent.retryNotice 2, BgEvent.waited 5000, BgEvent.chatAction,
       BgEvent.retryWarning 2 20, BgEvent.waited 20000,
       BgEvent.retryNotice 3, BgEvent.waited 5000, BgEvent.chatAction,
       BgEvent.terminalFailure
         (if m3 = "" then "Error desconocido" else m3)] ∧
    (processTranslationInBackground env fp).countP isTerminalEvent = 1 ∧
    (processTranslationInBackground env fp).countP isSuccessDelivery = 0 := by
  have htrace : processTranslationInBackground env fp =
      [BgEvent.chatAction, BgEvent.retryWarning 1 10, BgEvent.waited 10000,
       BgEvent.retryNotice 2, BgEvent.waited 5000, BgEvent.chatAction,
       BgEvent.retryWarning 2 20, BgEvent.waited 20000,
       BgEvent.retryNotice 3, BgEvent.waited 5000, BgEvent.chatAction,
       BgEvent.terminalFailure
         (if m3 = "" then "Error desconocido" else m3)] := by
    unfold processTranslationInBackground MAX_RETRIES
    simp [bgLoop, h1, h2, h3, t1, t2, t3, errTextOf]
  refine ⟨htrace, ?_, ?_⟩
  · rw [htrace]
    simp [List.countP_cons, isTerminalEvent]
  · rw [htrace]
    simp [List.countP_cons, isSuccessDelivery]

/-- C2 witness: three induced non-timeout failures with message
`boom`. -/
theorem c2_terminal_failure_witness :
    isTimeoutLike "boom" none = false ∧
    (processTranslationInBackground
        ⟨fun _ => AttemptResult.failed "boom" none, fun _ => [], "T"⟩
        "f.pdf" =
      [BgEvent.chatAction, BgEvent.retryWarning 1 10, BgEvent.waited 10000,
       BgEvent.retryNotice 2, BgEvent.waited 5000, BgEvent.chatAction,
       BgEvent.retryWarning 2 20, BgEvent.waited 20000,
       BgEvent.retryNotice 3, BgEvent.waited 5000, BgEvent.chatAction,
       BgEvent.terminalFailure
         (if "boom" = "" then "Error desconocido" else "boom")] ∧
     (processTranslationInBackground
        ⟨fun _ => AttemptResult.failed "boom" none, fun _ => [], "T"⟩
        "f.pdf").countP isTerminalEvent = 1 ∧
     (processTranslationInBackground
        ⟨fun _ => AttemptResult.failed "boom" none, fun _ => [], "T"⟩
        "f.pdf").countP isSuccessDelivery = 0) :=
  ⟨by decide,
    c2_terminal_failure
      ⟨fun _ => AttemptResult.failed "boom" none, fun _ => [], "T"⟩
      "f.pdf" "boom" "boom" "boom" none none none
      rfl rfl rfl (by decide) (by decide) (by decide)⟩

/-! ## Claim theorems: timeout-survival artifact search (C9) -/

theorem takeWhile_append_stop {α : Type} (p : α → Bool) (xs : List α)
    (y : α) (ys : List α) (hx : ∀ x ∈ xs, p x = true) (hy : p y = false) :
    (xs ++ y :: ys).takeWhile p = xs := by
  induction xs with
  | nil => simp [List.takeWhile_cons, hy]
  | cons a t ih =>
    have ha : p a = true := hx a (by simp)
    have ht : ∀ x ∈ t, p x = true := fun x hxt => hx x (by simp [hxt])
    simp [List.takeWhile_cons, ha, ih ht]

/-- For a stored name `<digits>_<name>`, the regex strip recovers
exactly `<name>`: the maximal digit run is the user id, and the
underscore after it is consumed. -/
theorem stripLeadingNum_concat (u name : String) (hne : u ≠ "")
    (hd : ∀ ch ∈ u.toList, ch.isDigit = true) :
    stripLeadingNum (u ++ "_" ++ name) = name := by
  have hdata : (u ++ "_" ++ name).toList = u.toList ++ '_' :: name.toList := by
    simp [String.toList, String.data_append]
  have htake : (u ++ "_" ++ name).toList.takeWhile Char.isDigit =
      u.toList := by
    rw [hdata]
    exact takeWhile_append_stop Char.isDigit u.toList '_' name.toList hd rfl
  have hnonempty : u.toList ≠ [] := by
    intro hmm
    exact hne (String.ext (by simpa [String.toList] using hmm))
  have hempty : u.toList.isEmpty = false := by
    cases hu : u.toList with
    | nil => exact absurd hu hnonempty
    | cons a t => rfl
  unfold stripLeadingNum
  rw [htake, hempty, hdata]
  rw [show (u.toList ++ '_' :: name.toList).drop u.toList.length =
    '_' :: name.toList from List.drop_left u.toList ('_' :: name.toList)]
  simp

/-- The artifact acceptance test for a stored name `<digits>_<name>`
depends only on `<name>`. -/
theorem matchesTranslated_concat (u name f : String) (hne : u ≠ "")
    (hd : ∀ ch ∈ u.toList, ch.isDigit = true) :
    matchesTranslated (u ++ "_" ++ name) f =
      (strStarts f "translated_" && strEnds f name) := by
  unfold matchesTranslated
  rw [stripLeadingNum_concat u name hne hd]

theorem findTranslated_eq_of_strip_eq (files : List String)
    (fn1 fn2 : String) (h : stripLeadingNum fn1 = stripLeadingNum fn2) :
    findTranslated files fn1 = findTranslated files fn2 := by
  induction files with
  | nil => rfl
  | cons f t ih =>
    unfold findTranslated matchesTranslated
    rw [h]
    by_cases hc :
        (strStarts f "translated_" && strEnds f (stripLeadingNum fn2)) = true
    · rw [if_pos hc, if_pos hc]
    · rw [if_neg hc, if_neg hc]
      exact ih

theorem findTranslated_first (fn : String) (pre : List String) (f : String)
    (post : List String)
    (hpre : ∀ g ∈ pre, matchesTranslated fn g = false)
    (hf : matchesTranslated fn f = true) :
    findTranslated (pre ++ f :: post) fn = some f := by
  induction pre with
  | nil => simp [findTranslated, hf]
  | cons a t ih =>
    have ha : matchesTranslated fn a = false := hpre a (by simp)
    have ht : ∀ g ∈ t, matchesTranslated fn g = false :=
      fun g hg => hpre g (by simp [hg])
    simpa [findTranslated, ha] using ih ht

/-- A string whose characters after the last `'/'` are `suf` has
`lastComponent` equal to `suf`. -/
theorem lastComponent_eq (s : String) (pre suf : List Char)
    (hs : s.toList = pre ++ '/' :: suf)
    (hsuf : ∀ ch ∈ suf, (ch != '/') = true) :
    lastComponent s = String.mk suf := by
  unfold lastComponent
  rw [hs]
  rw [List.reverse_append, List.reverse_cons, List.append_assoc,
    List.singleton_append]
  rw [takeWhile_append_stop (fun ch => ch != '/') suf.reverse '/'
    pre.reverse (fun x hx => hsuf x (List.mem_reverse.mp hx)) (by decide)]
  rw [List.reverse_reverse]

/-- C9: the timeout-survival search derived from an upload stored as
`<userId>_<name>` (a digits-only user id) is insensitive to the user:
it accepts exactly the files starting with `translated_` and ending
with `<name>`, two distinct digit user ids induce the same search over
any listing, the first matching file in directory-listing order is
delivered, and the stored path `temp/<userId>_<name>` indeed yields
`<userId>_<name>` as the searched-against file name. -/
theorem c9_search_user_insensitive (u1 u2 name : String)
    (files : List String) (h1 : u1 ≠ "") (h2 : u2 ≠ "")
    (hd1 : ∀ ch ∈ u1.toList, ch.isDigit = true)
    (hd2 : ∀ ch ∈ u2.toList, ch.isDigit = true) :
    (∀ f, matchesTranslated (u1 ++ "_" ++ name) f =
       (strStarts f "translated_" && strEnds f name)) ∧
    findTranslated files (u1 ++ "_" ++ name) =
      findTranslated files (u2 ++ "_" ++ name) ∧
    (∀ pre f post, files = pre ++ f :: post →
      matchesTranslated (u1 ++ "_" ++ name) f = true →
      (∀ g ∈ pre, matchesTranslated (u1 ++ "_" ++ name) g = false) →
      findTranslated files (u1 ++ "_" ++ name) = some f) ∧
    ((∀ ch ∈ name.toList, (ch != '/') = true) →
      lastComponent ("temp/" ++ (u1 ++ "_" ++ name)) =
        u1 ++ "_" ++ name) := by
  refine ⟨fun f => matchesTranslated_concat u1 name f h1 hd1, ?_, ?_, ?_⟩
  · exact findTranslated_eq_of_strip_eq files _ _
      (by rw [stripLeadingNum_concat u1 name h1 hd1,
        stripLeadingNum_concat u2 name h2 hd2])
  · intro pre f post hsplit hf hpre
    rw [hsplit]
    exact findTranslated_first (u1 ++ "_" ++ name) pre f post hpre hf
  · intro hname
    have hdata : ("temp/" ++ (u1 ++ "_" ++ name)).toList =
        ['t', 'e', 'm', 'p'] ++ '/' :: (u1 ++ "_" ++ name).toList := by
      simp [String.toList, String.data_append]
    have hsuf : ∀ ch ∈ (u1 ++ "_" ++ name).toList, (ch != '/') = true := by
      intro ch hch
      rw [show (u1 ++ "_" ++ name).toList =
          u1.toList ++ '_' :: name.toList by
        simp [String.toList, String.data_append]] at hch
      rcases List.mem_append.mp hch with hch | hch
      · have : ch.isDigit = true := hd1 ch hch
        cases hcc : (ch != '/') with
        | true => rfl
        | false =>
          have : ch = '/' := by
            simpa using hcc
          subst this
          simp at *
      · rcases List.mem_cons.mp hch with hch | hch
        · subst hch
          decide
        · exact hname ch hch
    rw [lastComponent_eq ("temp/" ++ (u1 ++ "_" ++ name))
      ['t', 'e', 'm', 'p'] (u1 ++ "_" ++ name).toList hdata hsuf]
    rfl

/-- C9 witness: users `111` and `222` sharing base name `doc.pdf`
induce the same search, which accepts and delivers
`translated_doc.pdf` — the first match in listing order. -/
theorem c9_search_user_insensitive_witness :
    matchesTranslated ("111" ++ "_" ++ "doc.pdf") "translated_doc.pdf" =
      (strStarts "translated_doc.pdf" "translated_" &&
       strEnds "translated_doc.pdf" "doc.pdf") ∧
    findTranslated ["x.txt", "translated_doc.pdf", "translated_99_doc.pdf"]
        ("111" ++ "_" ++ "doc.pdf") =
      findTranslated ["x.txt", "translated_doc.pdf", "translated_99_doc.pdf"]
        ("222" ++ "_" ++ "doc.pdf") ∧
    findTranslated ["x.txt", "translated_doc.pdf", "translated_99_doc.pdf"]
        ("111" ++ "_" ++ "doc.pdf") = some "translated_doc.pdf" ∧
    lastComponent ("temp/" ++ ("111" ++ "_" ++ "doc.pdf")) =
      "111" ++ "_" ++ "doc.pdf" := by
  refine ⟨(c9_search_user_insensitive "111" "222" "doc.pdf"
      ["x.txt", "translated_doc.pdf", "translated_99_doc.pdf"]
      (by decide) (by decide) (by decide) (by decide)).1
      "translated_doc.pdf", ?_, ?_, ?_⟩
  · exact (c9_search_user_insensitive "111" "222" "doc.pdf"
      ["x.txt", "translated_doc.pdf", "translated_99_doc.pdf"]
      (by decide) (by decide) (by decide) (by decide)).2.1
  · exact (c9_search_user_insensitive "111" "222" "doc.pdf"
      ["x.txt", "translated_doc.pdf", "translated_99_doc.pdf"]
      (by decide) (by decide) (by decide) (by decide)).2.2.1
      ["x.txt"] "translated_doc.pdf" ["translated_99_doc.pdf"]
      rfl (by decide) (by decide)
  · exact (c9_search_user_insensitive "111" "222" "doc.pdf"
      ["x.txt", "translated_doc.pdf", "translated_99_doc.pdf"]
      (by decide) (by decide) (by decide) (by decide)).2.2.2 (by decide)

/-- C10 witness: the lazy-creation statement at an empty store, with
the no-prior-session hypothesis discharged. -/
theorem c10_lazy_session_creation_witness :
    jsMapGet (SessionManagerState.mk []).sessions "u" = none ∧
    ((jsMapGet (addMessage ⟨[]⟩ "u" ⟨.user, "hi", 1⟩ 7).sessions "u").map
        Session.lastActivity = some 7 ∧
     (jsMapGet (clearHistory ⟨[]⟩ "u" 7).sessions "u").map
        Session.lastActivity = some 7 ∧
     (jsMapGet (addActiveServer ⟨[]⟩ "u" "sid" 7).sessions "u").map
        Session.lastActivity = some 7 ∧
     (jsMapGet (removeActiveServer ⟨[]⟩ "u" "sid" 7).sessions "u").map
        Session.lastActivity = some 7 ∧
     (jsMapGet ((getActiveServers ⟨[]⟩ "u" 7).2).sessions "u").map
        Session.lastActivity = some 7) ∧
    (jsMapGet (addMessage ⟨[]⟩ "u" ⟨.user, "hi", 1⟩ 7).sessions "u" =
        some ⟨"u", [⟨.user, "hi", 1⟩], [], 7, 7⟩ ∧
      jsMapGet (clearHistory ⟨[]⟩ "u" 7).sessions "u" =
        some ⟨"u", [], [], 7, 7⟩ ∧
      jsMapGet (addActiveServer ⟨[]⟩ "u" "sid" 7).sessions "u" =
        some ⟨"u", [], ["sid"], 7, 7⟩ ∧
      jsMapGet (removeActiveServer ⟨[]⟩ "u" "sid" 7).sessions "u" =
        some ⟨"u", [], [], 7, 7⟩ ∧
      (getActiveServers ⟨[]⟩ "u" 7).1 = [] ∧
      jsMapGet ((getActiveServers ⟨[]⟩ "u" 7).2).sessions "u" =
        some ⟨"u", [], [], 7, 7⟩) :=
  ⟨by decide, (c10_lazy_session_creation ⟨[]⟩ "u" "sid" ⟨.user, "hi", 1⟩ 7).1,
    (c10_lazy_session_creation ⟨[]⟩ "u" "sid" ⟨.user, "hi", 1⟩ 7).2
      (by decide)⟩

end TMC
